import Mathlib

/-!
Verification of the manifest patcher in src/add_files_to_xcode.py.

The script edits an Xcode project manifest (one text blob) by four
find-and-insert operations anchored on literal marker substrings, then
writes the result back.  We embed the text as `List Char`, the random
identifier source (uuid.uuid4) as a stream `seeds : Nat -> Nat` of
128-bit draws, and Python exceptions as explicit result constructors.
Python slices `s[:a]`, `s[a:b]`, `s[a:]` become `take a`, `(take b).drop a`
and `drop a`, which share the clamping behaviour of Python slicing, and
`str.index` becomes `findSub`, returning `none` where Python raises
ValueError.
-/

namespace XcodePatch

/-- Python substring search, `hay.index(pat)` and `pat in hay`:
index of the first occurrence of `pat` in the list, if any. -/
def findSub (pat : List Char) : List Char → Option Nat
  | [] => if pat.isEmpty then some 0 else none
  | c :: rest =>
    if pat.isPrefixOf (c :: rest) then some 0
    else
      match findSub pat rest with
      | some k => some (k + 1)
      | none => none

/-- `hay.index(pat)` (raising = `none`). -/
def pyIndex (hay pat : List Char) : Option Nat := findSub pat hay

/-- `hay.index(pat, start)`: first occurrence at position `>= start`. -/
def pyIndexFrom (hay pat : List Char) (start : Nat) : Option Nat :=
  (findSub pat (hay.drop start)).map (· + start)

/-- `pat in hay`. -/
def pyContains (hay pat : List Char) : Bool := (pyIndex hay pat).isSome

/-- Lowercase hexadecimal digit characters, as indexed by `Nat.mod 16`. -/
def hexDigitChar (d : Nat) : Char := "0123456789abcdef".data.getD d 'x'

/-- `w` lowercase hex digits of `n`, zero padded, most significant first:
the embedding of the 32-character string `uuid.uuid4().hex` (for `w = 32`
and `n` the 128-bit value of the uuid). -/
def toHexPadded : Nat → Nat → List Char
  | 0, _ => []
  | w + 1, n => toHexPadded w (n / 16) ++ [hexDigitChar (n % 16)]

/-- Line 22-24: `uuid.uuid4().hex[:24].upper()`, as a function of the
drawn 128-bit random value `n`. -/
def generate_uuid (n : Nat) : List Char :=
  ((toHexPadded 32 n).take 24).map Char.toUpper

/-- Line 45. -/
def file_ref_marker : List Char := "/* Begin PBXFileReference section */".data

/-- Line 46. -/
def file_ref_end_marker : List Char := "/* End PBXFileReference section */".data

/-- Line 71. -/
def build_file_marker : List Char := "/* Begin PBXBuildFile section */".data

/-- Line 72. -/
def build_file_end_marker : List Char := "/* End PBXBuildFile section */".data

/-- Line 94. -/
def main_group_marker : List Char := "CoolClockPresence */ = \x7b".data

/-- Line 99. -/
def children_marker : List Char := "children = (".data

/-- Lines 101 and 124. -/
def close_paren_marker : List Char := ");".data

/-- Line 117. -/
def sources_phase_marker : List Char := "/* Sources */ = \x7b".data

/-- Line 122. -/
def files_marker : List Char := "files = (".data

/-- The literal `lastKnownFileType` clause of line 55, hardcoded for
every file of the input list. -/
def lastKnownToken : List Char := "lastKnownFileType = sourcecode.swift; ".data

/-- Line 55: one PBXFileReference entry line. -/
def refEntry (ref name : List Char) : List Char :=
  "\t\t".data ++ ref ++ " /* ".data ++ name
    ++ " */ = \x7bisa = PBXFileReference; ".data ++ lastKnownToken
    ++ "path = ".data ++ name ++ "; sourceTree = \"<group>\"; \x7d;\n".data

/-- Line 77: one PBXBuildFile entry line. -/
def buildEntry (build ref name : List Char) : List Char :=
  "\t\t".data ++ build ++ " /* ".data ++ name
    ++ " in Sources */ = \x7bisa = PBXBuildFile; fileRef = ".data
    ++ ref ++ " /* ".data ++ name ++ " */; \x7d;\n".data

/-- Line 106: one group-children entry line. -/
def childEntry (ref name : List Char) : List Char :=
  "\t\t\t\t".data ++ ref ++ " /* ".data ++ name ++ " */,\n".data

/-- Line 129: one sources-phase entry line. -/
def sourcesEntry (build name : List Char) : List Char :=
  "\t\t\t\t".data ++ build ++ " /* ".data ++ name ++ " in Sources */,\n".data

/-- Lines 15-20: the hardcoded input list. -/
def new_files : List (List Char) :=
  ["WorldClockLocation.swift".data, "WorldClockManager.swift".data,
   "WorldClockView.swift".data, "WorldClockPickerView.swift".data]

/-- Lines 38-42, the `file_refs` dict: iteration `i` of the loop draws
`generate_uuid()` twice, first for `file_refs`, then for `build_files`,
so the reference id of the `i`-th file comes from draw `2*i`. -/
def file_refs_dict (seeds : Nat → Nat) (files : List (List Char)) :
    List (List Char × List Char) :=
  files.enum.map fun p => (p.2, generate_uuid (seeds (2 * p.1)))

/-- Lines 38-42, the `build_files` dict (draw `2*i + 1`). -/
def build_files_dict (seeds : Nat → Nat) (files : List (List Char)) :
    List (List Char × List Char) :=
  files.enum.map fun p => (p.2, generate_uuid (seeds (2 * p.1 + 1)))

/-- Lookup of the most recent binding of `k` in an insertion-ordered
association list (later pairs shadow earlier ones, as assignments to a
Python dict do). -/
def dictFind (k : List Char) : List (List Char × List Char) → Option (List Char)
  | [] => none
  | p :: rest =>
    match dictFind k rest with
    | some v => some v
    | none => if p.1 == k then some p.2 else none

/-- Python dict lookup (the looked-up keys are always present here, so
the default is never returned). -/
def dictGet (d : List (List Char × List Char)) (k : List Char) : List Char :=
  (dictFind k d).getD []

/-- Lines 53-56: `"".join(file_ref_entries)`. -/
def refLines (seeds : Nat → Nat) (files : List (List Char)) : List Char :=
  (files.map fun f => refEntry (dictGet (file_refs_dict seeds files) f) f).flatten

/-- Lines 75-78: `"".join(build_file_entries)`. -/
def buildLines (seeds : Nat → Nat) (files : List (List Char)) : List Char :=
  (files.map fun f =>
    buildEntry (dictGet (build_files_dict seeds files) f)
      (dictGet (file_refs_dict seeds files) f) f).flatten

/-- Lines 104-107: `"".join(file_ref_in_children)`. -/
def childLines (seeds : Nat → Nat) (files : List (List Char)) : List Char :=
  (files.map fun f => childEntry (dictGet (file_refs_dict seeds files) f) f).flatten

/-- Lines 127-130: `"".join(build_file_in_sources)`. -/
def sourceLines (seeds : Nat → Nat) (files : List (List Char)) : List Char :=
  (files.map fun f => sourcesEntry (dictGet (build_files_dict seeds files) f) f).flatten

/-- Outcome of one run of `add_files_to_project`:
`returnFalse` is the explicit `return False` (line 50), `valueError` an
unhandled ValueError escaping from `str.index`, and `ok out` the
successful return with `out` the text written to disk at lines 140-141. -/
inductive PatchResult where
  | returnFalse : PatchResult
  | valueError : PatchResult
  | ok : List Char → PatchResult
deriving DecidableEq

/-- Lines 62-67 and 84-89: `content[:s] + "\n" + ins + content[s:e] + content[e:]`
with `s` just past the start marker and `e` at the end marker. -/
def spliceSec (s e : Nat) (ins c : List Char) : List Char :=
  c.take s ++ '\n' :: (ins ++ ((c.take e).drop s ++ c.drop e))

/-- Lines 44-68: the PBXFileReference section step. -/
def refsStep (ins c : List Char) : PatchResult :=
  match pyIndex c file_ref_marker with
  | none => .returnFalse
  | some i =>
    match pyIndex c file_ref_end_marker with
    | none => .valueError
    | some e => .ok (spliceSec (i + file_ref_marker.length) e ins c)

/-- Lines 70-90: the PBXBuildFile section step (no membership test before
`content.index(build_file_marker)` at line 81, so a missing start marker
also raises). -/
def buildStep (ins c : List Char) : PatchResult :=
  match pyIndex c build_file_marker with
  | none => .valueError
  | some i =>
    match pyIndex c build_file_end_marker with
    | none => .valueError
    | some e => .ok (spliceSec (i + build_file_marker.length) e ins c)

/-- Lines 109-113 and 132-136: `content[:k] + ins + content[k:]`. -/
def insertAt (k : Nat) (ins c : List Char) : List Char :=
  c.take k ++ (ins ++ c.drop k)

/-- Lines 92-114: the main-group children step; skipped silently when the
group marker is absent, but `content.index` at lines 100-101 raise when
the marker is present and the later tokens are not found. -/
def groupStep (ins c : List Char) : Option (List Char) :=
  match pyIndex c main_group_marker with
  | none => some c
  | some mg =>
    match pyIndexFrom c children_marker mg with
    | none => none
    | some cp =>
      match pyIndexFrom c close_paren_marker cp with
      | none => none
      | some ce => some (insertAt ce ins c)

/-- Lines 116-137: the sources build phase step, same shape as the group
step. -/
def sourcesStep (ins c : List Char) : Option (List Char) :=
  match pyIndex c sources_phase_marker with
  | none => some c
  | some sp =>
    match pyIndexFrom c files_marker sp with
    | none => none
    | some fp =>
      match pyIndexFrom c close_paren_marker fp with
      | none => none
      | some fe => some (insertAt fe ins c)

/-- Lines 26-147: the whole run on the in-memory text, with `files` the
`new_files` list and `seeds` the stream of 128-bit uuid4 draws.  The
write at lines 140-141 happens only on `ok`. -/
def add_files_to_project (seeds : Nat → Nat) (files : List (List Char))
    (content : List Char) : PatchResult :=
  match refsStep (refLines seeds files) content with
  | .returnFalse => .returnFalse
  | .valueError => .valueError
  | .ok c1 =>
    match buildStep (buildLines seeds files) c1 with
    | .returnFalse => .returnFalse
    | .valueError => .valueError
    | .ok c2 =>
      match groupStep (childLines seeds files) c2 with
      | none => .valueError
      | some c3 =>
        match sourcesStep (sourceLines seeds files) c3 with
        | none => .valueError
        | some c4 => .ok c4

/-- The file contents on disk after the run: the single write of lines
140-141 is the last operation of the function, so the file is rewritten
exactly when the run returns `ok`, and keeps its pre-run bytes otherwise. -/
def finalDisk (seeds : Nat → Nat) (files : List (List Char))
    (content : List Char) : List Char :=
  match add_files_to_project seeds files content with
  | .ok out => out
  | _ => content

/-- Projection of a successful outcome (used to name concrete outputs). -/
def getOk : PatchResult → List Char
  | .ok out => out
  | _ => []

/-- The text strictly between the end of the first occurrence of `startM`
and the first occurrence of `endM`. -/
def sectionBetween (c startM endM : List Char) : List Char :=
  match pyIndex c startM, pyIndex c endM with
  | some i, some e => (c.take e).drop (i + startM.length)
  | _, _ => []

/-! ### Occurrence lemmas: `findSub` against `List.IsInfix` -/

theorem infix_iff_drop {pat c : List Char} : pat <:+: c ↔ ∃ p, pat <+: c.drop p := by
  constructor
  · rintro ⟨s, t, rfl⟩
    refine ⟨s.length, ?_⟩
    rw [List.append_assoc, List.drop_left]
    exact List.prefix_append pat t
  · rintro ⟨p, t, ht⟩
    exact ⟨c.take p, t, by rw [List.append_assoc, ht, List.take_append_drop]⟩

theorem findSub_eq_none_iff {pat c : List Char} : findSub pat c = none ↔ ¬ pat <:+: c := by
  induction c with
  | nil =>
    cases pat with
    | nil => simp [findSub]
    | cons a l => simp [findSub]
  | cons x rest ih =>
    by_cases hp : pat <+: x :: rest
    · have hb : pat.isPrefixOf (x :: rest) = true := List.isPrefixOf_iff_prefix.mpr hp
      simp [findSub, hb, List.IsPrefix.isInfix hp]
    · have hb : ¬ pat.isPrefixOf (x :: rest) = true := by
        simp [List.isPrefixOf_iff_prefix, hp]
      have lhs_iff : findSub pat (x :: rest) = none ↔ findSub pat rest = none := by
        rw [findSub, if_neg hb]
        cases findSub pat rest <;> simp
      rw [lhs_iff, List.infix_cons_iff, not_or, ih]
      tauto

theorem findSub_some {pat c : List Char} {k : Nat} (h : findSub pat c = some k) :
    pat <+: c.drop k ∧ k + pat.length ≤ c.length := by
  induction c generalizing k with
  | nil =>
    cases pat with
    | nil =>
      simp [findSub] at h
      subst h
      simp
    | cons a l => simp [findSub] at h
  | cons x rest ih =>
    by_cases hp : pat.isPrefixOf (x :: rest) = true
    · rw [findSub, if_pos hp] at h
      obtain rfl : k = 0 := (Option.some.inj h).symm
      refine ⟨by simpa using List.isPrefixOf_iff_prefix.mp hp, ?_⟩
      have hle := List.IsPrefix.length_le (List.isPrefixOf_iff_prefix.mp hp)
      simpa using hle
    · rw [findSub, if_neg hp] at h
      cases h2 : findSub pat rest with
      | none => rw [h2] at h; exact absurd h (by simp)
      | some j =>
        rw [h2] at h
        obtain rfl : k = j + 1 := (Option.some.inj h).symm
        obtain ⟨hpre, hlen⟩ := ih h2
        refine ⟨by simpa using hpre, ?_⟩
        simp only [List.length_cons]
        omega

theorem findSub_some_le {pat c : List Char} {k : Nat} (h : findSub pat c = some k) :
    k ≤ c.length := by
  have := (findSub_some h).2
  omega

theorem pyIndexFrom_bound {c pat : List Char} {q r : Nat} (hne : pat ≠ [])
    (h : pyIndexFrom c pat q = some r) : r + pat.length ≤ c.length := by
  rw [pyIndexFrom] at h
  cases h2 : findSub pat (c.drop q) with
  | none => rw [h2] at h; exact absurd h (by simp)
  | some j =>
    rw [h2] at h
    obtain rfl : r = j + q := (Option.some.inj h).symm
    have hlen := (findSub_some h2).2
    rw [List.length_drop] at hlen
    have hplen : 0 < pat.length := List.length_pos.mpr hne
    omega

theorem pref_append_cons {pat X Y : List Char} {d : Char} (hd : d ∉ pat)
    (h : pat <+: X ++ d :: Y) : pat <+: X := by
  induction X generalizing pat with
  | nil =>
    cases pat with
    | nil => exact List.nil_prefix
    | cons c ps =>
      obtain ⟨rfl, -⟩ := List.cons_prefix_cons.mp h
      exact absurd (List.mem_cons_self _ _) hd
  | cons x X' ih =>
    cases pat with
    | nil => exact List.nil_prefix
    | cons c ps =>
      obtain ⟨rfl, hps⟩ := List.cons_prefix_cons.mp h
      have : d ∉ ps := fun hm => hd (List.mem_cons_of_mem _ hm)
      exact List.cons_prefix_cons.mpr ⟨rfl, ih this hps⟩

/-- An occurrence of a pattern that avoids the character `d` cannot cross
a `d` barrier: it lies wholly left or wholly right of it. -/
theorem occurs_append_cons {pat X Y : List Char} {d : Char} (hne : pat ≠ [])
    (hd : d ∉ pat) (h : pat <:+: X ++ d :: Y) : pat <:+: X ∨ pat <:+: Y := by
  induction X with
  | nil =>
    rcases List.infix_cons_iff.mp h with hp | hi
    · cases pat with
      | nil => exact absurd rfl hne
      | cons c ps =>
        obtain ⟨rfl, -⟩ := List.cons_prefix_cons.mp hp
        exact absurd (List.mem_cons_self _ _) hd
    · exact Or.inr hi
  | cons x X' ih =>
    rcases List.infix_cons_iff.mp h with hp | hi
    · exact Or.inl (List.IsPrefix.isInfix (pref_append_cons hd hp))
    · rcases ih hi with h1 | h2
      · exact Or.inl (List.infix_cons h1)
      · exact Or.inr h2

theorem occurs_take {pat c : List Char} {k : Nat} (h : pat <:+: c.take k) :
    pat <:+: c :=
  h.trans ⟨[], c.drop k, by simp⟩

theorem occurs_drop {pat c : List Char} {k : Nat} (h : pat <:+: c.drop k) :
    pat <:+: c :=
  h.trans ⟨c.take k, [], by simp⟩

theorem drop_take_append_drop {c : List Char} {s e : Nat} (h : s ≤ e) :
    (c.take e).drop s ++ c.drop e = c.drop s := by
  by_cases hs : s ≤ (c.take e).length
  · conv_rhs => rw [← List.take_append_drop e c]
    rw [List.drop_append_eq_append_drop, Nat.sub_eq_zero_of_le hs, List.drop_zero]
  · have hlen : (c.take e).length = min e c.length := by simp
    have h1 : (c.take e).drop s = [] := List.drop_eq_nil_of_le (by omega)
    have h2 : c.drop e = [] := List.drop_eq_nil_of_le (by omega)
    have h3 : c.drop s = [] := List.drop_eq_nil_of_le (by omega)
    rw [h1, h2, h3]
    rfl

/-- The two mandatory-section insertions create no new occurrence of a
newline-free pattern: the inserted blob opens with the extra `"\n"` of
lines 64 and 86 and (when nonempty) ends with the final newline of the
last entry line, so occurrences cannot straddle its boundaries. -/
theorem spliceSec_no_new {pat ins c : List Char} {s e : Nat}
    (hne : pat ≠ []) (hnl : '\n' ∉ pat)
    (hins : ¬ pat <:+: ins)
    (hlast : ins = [] ∨ ∃ ins2, ins = ins2 ++ ['\n'])
    (hc : ¬ pat <:+: c) :
    ¬ pat <:+: spliceSec s e ins c := by
  intro h
  rw [spliceSec] at h
  have hmd : ¬ pat <:+: ((c.take e).drop s ++ c.drop e) := by
    intro hm
    by_cases hse : s ≤ e
    · rw [drop_take_append_drop hse] at hm
      exact hc (occurs_drop hm)
    · have hnil : (c.take e).drop s = [] := by
        have : (c.take e).length = min e c.length := by simp
        exact List.drop_eq_nil_of_le (by omega)
      rw [hnil, List.nil_append] at hm
      exact hc (occurs_drop hm)
  rcases occurs_append_cons hne hnl h with h1 | h2
  · exact hc (occurs_take h1)
  · rcases hlast with rfl | ⟨ins2, rfl⟩
    · rw [List.nil_append] at h2
      exact hmd h2
    · rw [List.append_assoc, List.singleton_append] at h2
      rcases occurs_append_cons hne hnl h2 with h3 | h4
      · exact hins (h3.trans ⟨[], ['\n'], by simp⟩)
      · exact hmd h4

/-- The two optional-step insertions create no new occurrence of a
pattern free of tabs and newlines: the inserted blob starts with the tab
indentation of its first entry line and ends with a newline. -/
theorem insertAt_no_new {pat ins c : List Char} {k : Nat}
    (hne : pat ≠ []) (hnl : '\n' ∉ pat) (htab : '\t' ∉ pat)
    (hins : ¬ pat <:+: ins)
    (hshape : ins = [] ∨ ∃ ins2, ins = '\t' :: (ins2 ++ ['\n']))
    (hc : ¬ pat <:+: c) :
    ¬ pat <:+: insertAt k ins c := by
  intro h
  rw [insertAt] at h
  rcases hshape with rfl | ⟨ins2, rfl⟩
  · rw [List.nil_append, List.take_append_drop] at h
    exact hc h
  · rcases occurs_append_cons hne htab h with h1 | h2
    · exact hc (occurs_take h1)
    · have h2a : pat <:+: ins2 ++ '\n' :: List.drop k c := by simpa using h2
      rcases occurs_append_cons hne hnl h2a with h3 | h4
      · exact hins (h3.trans ⟨['\t'], ['\n'], by simp⟩)
      · exact hc (occurs_drop h4)

/-! ### Inversion lemmas for the step functions -/

theorem refsStep_ok_iff {ins c out : List Char} :
    refsStep ins c = .ok out ↔ ∃ i e, pyIndex c file_ref_marker = some i ∧
      pyIndex c file_ref_end_marker = some e ∧
      out = spliceSec (i + file_ref_marker.length) e ins c := by
  unfold refsStep
  cases h1 : pyIndex c file_ref_marker with
  | none => simp
  | some i =>
    cases h2 : pyIndex c file_ref_end_marker with
    | none => simp [h2]
    | some e => simp [h2, eq_comm]

theorem buildStep_ok_iff {ins c out : List Char} :
    buildStep ins c = .ok out ↔ ∃ i e, pyIndex c build_file_marker = some i ∧
      pyIndex c build_file_end_marker = some e ∧
      out = spliceSec (i + build_file_marker.length) e ins c := by
  unfold buildStep
  cases h1 : pyIndex c build_file_marker with
  | none => simp
  | some i =>
    cases h2 : pyIndex c build_file_end_marker with
    | none => simp [h2]
    | some e => simp [h2, eq_comm]

theorem groupStep_some_iff {ins c out : List Char} :
    groupStep ins c = some out ↔
      (pyIndex c main_group_marker = none ∧ out = c) ∨
      (∃ mg cp ce, pyIndex c main_group_marker = some mg ∧
        pyIndexFrom c children_marker mg = some cp ∧
        pyIndexFrom c close_paren_marker cp = some ce ∧
        out = insertAt ce ins c) := by
  unfold groupStep
  cases h1 : pyIndex c main_group_marker with
  | none => simp [eq_comm]
  | some mg =>
    cases h2 : pyIndexFrom c children_marker mg with
    | none => simp [h2]
    | some cp =>
      cases h3 : pyIndexFrom c close_paren_marker cp with
      | none => simp [h2, h3]
      | some ce => simp [h2, h3, eq_comm]

theorem sourcesStep_some_iff {ins c out : List Char} :
    sourcesStep ins c = some out ↔
      (pyIndex c sources_phase_marker = none ∧ out = c) ∨
      (∃ sp fp fe, pyIndex c sources_phase_marker = some sp ∧
        pyIndexFrom c files_marker sp = some fp ∧
        pyIndexFrom c close_paren_marker fp = some fe ∧
        out = insertAt fe ins c) := by
  unfold sourcesStep
  cases h1 : pyIndex c sources_phase_marker with
  | none => simp [eq_comm]
  | some sp =>
    cases h2 : pyIndexFrom c files_marker sp with
    | none => simp [h2]
    | some fp =>
      cases h3 : pyIndexFrom c close_paren_marker fp with
      | none => simp [h2, h3]
      | some fe => simp [h2, h3, eq_comm]

theorem add_files_ok_iff {seeds : Nat → Nat} {files : List (List Char)}
    {content out : List Char} :
    add_files_to_project seeds files content = .ok out ↔
      ∃ c1 c2 c3, refsStep (refLines seeds files) content = .ok c1 ∧
        buildStep (buildLines seeds files) c1 = .ok c2 ∧
        groupStep (childLines seeds files) c2 = some c3 ∧
        sourcesStep (sourceLines seeds files) c3 = some out := by
  unfold add_files_to_project
  cases h1 : refsStep (refLines seeds files) content with
  | returnFalse => simp [h1]
  | valueError => simp [h1]
  | ok c1 =>
    cases h2 : buildStep (buildLines seeds files) c1 with
    | returnFalse => simp [h1, h2]
    | valueError => simp [h1, h2]
    | ok c2 =>
      cases h3 : groupStep (childLines seeds files) c2 with
      | none => simp [h1, h2, h3]
      | some c3 =>
        cases h4 : sourcesStep (sourceLines seeds files) c3 with
        | none => simp [h1, h2, h3, h4]
        | some c4 => simp [h1, h2, h3, h4, eq_comm]

/-! ### Purely additive edits -/

/-- One purely additive edit: the output is the input with one contiguous
block inserted at a single point. -/
def Ins1 (c d : List Char) : Prop := ∃ A m B, c = A ++ B ∧ d = A ++ (m ++ B)

/-- Four-point additive decomposition: the original splits into five
contiguous pieces that reappear byte-identically and in order, with at
most four inserted blocks between them. -/
def Additive4 (c d : List Char) : Prop :=
  ∃ a1 a2 a3 a4 a5 m1 m2 m3 m4 : List Char,
    c = a1 ++ (a2 ++ (a3 ++ (a4 ++ a5))) ∧
    d = a1 ++ (m1 ++ (a2 ++ (m2 ++ (a3 ++ (m3 ++ (a4 ++ (m4 ++ a5)))))))

theorem ins1_refl (c : List Char) : Ins1 c c := ⟨c, [], [], by simp, by simp⟩

theorem spliceSec_ins1 {s e : Nat} {ins c : List Char} :
    Ins1 c (spliceSec s e ins c) := by
  by_cases hse : s ≤ e
  · refine ⟨c.take s, '\n' :: ins, c.drop s, (List.take_append_drop s c).symm, ?_⟩
    rw [spliceSec, drop_take_append_drop hse]
    simp
  · refine ⟨c.take e, (c.take s).drop e ++ '\n' :: ins, c.drop e,
      (List.take_append_drop e c).symm, ?_⟩
    rw [spliceSec]
    have hmid : (c.take e).drop s = [] := by
      have : (c.take e).length = min e c.length := by simp
      exact List.drop_eq_nil_of_le (by omega)
    have htakes : c.take s = c.take e ++ (c.take s).drop e := by
      conv_lhs => rw [← List.take_append_drop e (c.take s)]
      rw [List.take_take, min_eq_left (by omega)]
    rw [hmid]
    conv_lhs => rw [htakes]
    simp [List.append_assoc]

theorem insertAt_ins1 {k : Nat} {ins c : List Char} : Ins1 c (insertAt k ins c) :=
  ⟨c.take k, ins, c.drop k, (List.take_append_drop k c).symm, rfl⟩

theorem refsStep_ins1 {ins c out : List Char} (h : refsStep ins c = .ok out) :
    Ins1 c out := by
  obtain ⟨i, e, -, -, rfl⟩ := refsStep_ok_iff.mp h
  exact spliceSec_ins1

theorem buildStep_ins1 {ins c out : List Char} (h : buildStep ins c = .ok out) :
    Ins1 c out := by
  obtain ⟨i, e, -, -, rfl⟩ := buildStep_ok_iff.mp h
  exact spliceSec_ins1

theorem groupStep_ins1 {ins c out : List Char} (h : groupStep ins c = some out) :
    Ins1 c out := by
  rcases groupStep_some_iff.mp h with ⟨-, rfl⟩ | ⟨mg, cp, ce, -, -, -, rfl⟩
  · exact ins1_refl _
  · exact insertAt_ins1

theorem sourcesStep_ins1 {ins c out : List Char} (h : sourcesStep ins c = some out) :
    Ins1 c out := by
  rcases sourcesStep_some_iff.mp h with ⟨-, rfl⟩ | ⟨sp, fp, fe, -, -, -, rfl⟩
  · exact ins1_refl _
  · exact insertAt_ins1

theorem ins1_comp2 {c d e : List Char} (h1 : Ins1 c d) (h2 : Ins1 d e) :
    ∃ b1 b2 b3 n1 n2 : List Char,
      c = b1 ++ (b2 ++ b3) ∧ e = b1 ++ (n1 ++ (b2 ++ (n2 ++ b3))) := by
  obtain ⟨A, m, B, hc, hd⟩ := h1
  obtain ⟨A2, n, B2, hd2, he⟩ := h2
  rw [hd] at hd2
  rcases List.append_eq_append_iff.mp hd2 with ⟨S, hS1, hS2⟩ | ⟨R, hR1, hR2⟩
  · rcases List.append_eq_append_iff.mp hS2 with ⟨T, hT1, hT2⟩ | ⟨U, hU1, hU2⟩
    · refine ⟨A, T, B2, m, n, ?_, ?_⟩
      · simp [hc, hT2]
      · simp [he, hS1, hT1, List.append_assoc]
    · refine ⟨A, B, [], S ++ (n ++ U), [], ?_, ?_⟩
      · simp [hc]
      · simp [he, hS1, hU2, List.append_assoc]
  · refine ⟨A2, R, B, n, m, ?_, ?_⟩
    · simp [hc, hR1, List.append_assoc]
    · simp [he, hR2, List.append_assoc]

theorem add2_comp {c d e : List Char}
    (h1 : ∃ a1 a2 a3 m1 m2 : List Char,
      c = a1 ++ (a2 ++ a3) ∧ d = a1 ++ (m1 ++ (a2 ++ (m2 ++ a3))))
    (h2 : Ins1 d e) :
    ∃ b1 b2 b3 b4 n1 n2 n3 : List Char,
      c = b1 ++ (b2 ++ (b3 ++ b4)) ∧
      e = b1 ++ (n1 ++ (b2 ++ (n2 ++ (b3 ++ (n3 ++ b4))))) := by
  obtain ⟨a1, a2, a3, m1, m2, hc, hd⟩ := h1
  obtain ⟨A, n, B, hd2, he⟩ := h2
  rw [hd] at hd2
  rcases List.append_eq_append_iff.mp hd2 with ⟨S, hS1, hS2⟩ | ⟨R, hR1, hR2⟩
  · rcases List.append_eq_append_iff.mp hS2 with ⟨T, hT1, hT2⟩ | ⟨U, hU1, hU2⟩
    · rcases List.append_eq_append_iff.mp hT2 with ⟨V, hV1, hV2⟩ | ⟨R3, hX1, hX2⟩
      · rcases List.append_eq_append_iff.mp hV2 with ⟨W, hW1, hW2⟩ | ⟨X2, hY1, hY2⟩
        · refine ⟨a1, a2, W, B, m1, m2, n, ?_, ?_⟩
          · simp [hc, hW2, List.append_assoc]
          · simp [he, hS1, hT1, hV1, hW1, List.append_assoc]
        · refine ⟨a1, a2, a3, [], m1, V ++ (n ++ X2), [], ?_, ?_⟩
          · simp [hc]
          · simp [he, hS1, hT1, hV1, hY2, List.append_assoc]
      · refine ⟨a1, T, R3, a3, m1, n, m2, ?_, ?_⟩
        · simp [hc, hX1, List.append_assoc]
        · simp [he, hS1, hT1, hX2, List.append_assoc]
    · refine ⟨a1, a2, a3, [], S ++ (n ++ U), m2, [], ?_, ?_⟩
      · simp [hc]
      · simp [he, hS1, hU2, List.append_assoc]
  · refine ⟨A, R, a2, a3, n, m1, m2, ?_, ?_⟩
    · simp [hc, hR1, List.append_assoc]
    · simp [he, hR2, List.append_assoc]

theorem add3_comp {c d e : List Char}
    (h1 : ∃ a1 a2 a3 a4 m1 m2 m3 : List Char,
      c = a1 ++ (a2 ++ (a3 ++ a4)) ∧
      d = a1 ++ (m1 ++ (a2 ++ (m2 ++ (a3 ++ (m3 ++ a4))))))
    (h2 : Ins1 d e) : Additive4 c e := by
  obtain ⟨a1, a2, a3, a4, m1, m2, m3, hc, hd⟩ := h1
  obtain ⟨A, n, B, hd2, he⟩ := h2
  rw [hd] at hd2
  rcases List.append_eq_append_iff.mp hd2 with ⟨S, hS1, hS2⟩ | ⟨R, hR1, hR2⟩
  · rcases List.append_eq_append_iff.mp hS2 with ⟨T, hT1, hT2⟩ | ⟨U, hU1, hU2⟩
    · rcases List.append_eq_append_iff.mp hT2 with ⟨V, hV1, hV2⟩ | ⟨R3, hX1, hX2⟩
      · rcases List.append_eq_append_iff.mp hV2 with ⟨W, hW1, hW2⟩ | ⟨X2, hY1, hY2⟩
        · rcases List.append_eq_append_iff.mp hW2 with ⟨Y, hZ1, hZ2⟩ | ⟨Z2, hZ3, hZ4⟩
          · rcases List.append_eq_append_iff.mp hZ2 with ⟨P, hP1, hP2⟩ | ⟨Q, hQ1, hQ2⟩
            · refine ⟨a1, a2, a3, P, B, m1, m2, m3, n, ?_, ?_⟩
              · simp [hc, hP2, List.append_assoc]
              · simp [he, hS1, hT1, hV1, hW1, hZ1, hP1, List.append_assoc]
            · refine ⟨a1, a2, a3, a4, [], m1, m2, Y ++ (n ++ Q), [], ?_, ?_⟩
              · simp [hc]
              · simp [he, hS1, hT1, hV1, hW1, hZ1, hQ2, List.append_assoc]
          · refine ⟨a1, a2, W, Z2, a4, m1, m2, n, m3, ?_, ?_⟩
            · simp [hc, hZ3, List.append_assoc]
            · simp [he, hS1, hT1, hV1, hW1, hZ4, List.append_assoc]
        · refine ⟨a1, a2, a3, a4, [], m1, V ++ (n ++ X2), m3, [], ?_, ?_⟩
          · simp [hc]
          · simp [he, hS1, hT1, hV1, hY2, List.append_assoc]
      · refine ⟨a1, T, R3, a3, a4, m1, n, m2, m3, ?_, ?_⟩
        · simp [hc, hX1, List.append_assoc]
        · simp [he, hS1, hT1, hX2, List.append_assoc]
    · refine ⟨a1, a2, a3, a4, [], S ++ (n ++ U), m2, m3, [], ?_, ?_⟩
      · simp [hc]
      · simp [he, hS1, hU2, List.append_assoc]
  · refine ⟨A, R, a2, a3, a4, n, m1, m2, m3, ?_, ?_⟩
    · simp [hc, hR1, List.append_assoc]
    · simp [he, hR2, List.append_assoc]

/-! ### Length of one insertion -/

theorem spliceSec_length {s e : Nat} {ins c : List Char}
    (hs : s ≤ e) (he : e ≤ c.length) :
    (spliceSec s e ins c).length = c.length + 1 + ins.length := by
  rw [spliceSec, drop_take_append_drop hs]
  simp only [List.length_append, List.length_cons, List.length_take, List.length_drop]
  omega

theorem insertAt_length {k : Nat} {ins c : List Char} (hk : k ≤ c.length) :
    (insertAt k ins c).length = c.length + ins.length := by
  rw [insertAt]
  simp only [List.length_append, List.length_take, List.length_drop]
  omega

/-! ### The identifier generator -/

/-- The uppercase hexadecimal alphabet of the spec. -/
def isHexUpperChar (ch : Char) : Bool := "0123456789ABCDEF".data.contains ch

theorem toHexPadded_length (w : Nat) : ∀ n : Nat, (toHexPadded w n).length = w := by
  induction w with
  | zero => intro n; rfl
  | succ w ih => intro n; simp [toHexPadded, ih]

theorem toHexPadded_mem {w n : Nat} {ch : Char} (h : ch ∈ toHexPadded w n) :
    ∃ d, d < 16 ∧ ch = hexDigitChar d := by
  induction w generalizing n with
  | zero => simp [toHexPadded] at h
  | succ w ih =>
    rw [toHexPadded] at h
    rcases List.mem_append.mp h with h1 | h2
    · exact ih h1
    · exact ⟨n % 16, Nat.mod_lt n (by norm_num), by simpa using h2⟩

theorem generate_uuid_length (n : Nat) : (generate_uuid n).length = 24 := by
  rw [generate_uuid, List.length_map, List.length_take, toHexPadded_length]
  norm_num

theorem generate_uuid_chars {n : Nat} {ch : Char} (h : ch ∈ generate_uuid n) :
    isHexUpperChar ch = true := by
  rw [generate_uuid] at h
  obtain ⟨c0, hc0, rfl⟩ := List.mem_map.mp h
  have hmem : c0 ∈ toHexPadded 32 n := List.mem_of_mem_take hc0
  obtain ⟨d, hd, rfl⟩ := toHexPadded_mem hmem
  have hall : ∀ d : Nat, d < 16 → isHexUpperChar ((hexDigitChar d).toUpper) = true := by decide
  exact hall d hd

theorem toHexPadded_take {w k : Nat} : ∀ n : Nat,
    (toHexPadded (w + k) n).take w = toHexPadded w (n / 16 ^ k) := by
  induction k with
  | zero => intro n; rw [Nat.add_zero, pow_zero, Nat.div_one,
      List.take_of_length_le (by rw [toHexPadded_length])]
  | succ k ih =>
    intro n
    rw [show w + (k + 1) = (w + k) + 1 by omega, toHexPadded,
      List.take_append_of_le_length (by rw [toHexPadded_length]; omega), ih]
    congr 1
    rw [Nat.div_div_eq_div_mul, pow_succ, Nat.mul_comm]

theorem hexDigitChar_upper_inj :
    ∀ d : Nat, d < 16 → ∀ e : Nat, e < 16 →
      (hexDigitChar d).toUpper = (hexDigitChar e).toUpper → d = e := by decide

theorem map_toUpper_toHexPadded_inj {w : Nat} : ∀ {a b : Nat},
    (toHexPadded w a).map Char.toUpper = (toHexPadded w b).map Char.toUpper →
    a % 16 ^ w = b % 16 ^ w := by
  induction w with
  | zero => intro a b _; simp [Nat.mod_one]
  | succ w ih =>
    intro a b h
    rw [toHexPadded, toHexPadded, List.map_append, List.map_append] at h
    have hlen : ((toHexPadded w (a / 16)).map Char.toUpper).length
        = ((toHexPadded w (b / 16)).map Char.toUpper).length := by
      simp [toHexPadded_length]
    obtain ⟨h1, h2⟩ := List.append_inj h hlen
    have hd : a % 16 = b % 16 := by
      simp only [List.map_cons, List.map_nil, List.cons.injEq, and_true] at h2
      exact hexDigitChar_upper_inj _ (Nat.mod_lt a (by norm_num)) _
        (Nat.mod_lt b (by norm_num)) h2
    have hq : a / 16 % 16 ^ w = b / 16 % 16 ^ w := ih h1
    have ha : a % 16 ^ (w + 1) = a % 16 + 16 * (a / 16 % 16 ^ w) := by
      rw [Nat.pow_succ', Nat.mod_mul]
    have hb : b % 16 ^ (w + 1) = b % 16 + 16 * (b / 16 % 16 ^ w) := by
      rw [Nat.pow_succ', Nat.mod_mul]
    omega

theorem generate_uuid_inj {a b : Nat} (h : generate_uuid a = generate_uuid b) :
    a / 16 ^ 8 % 16 ^ 24 = b / 16 ^ 8 % 16 ^ 24 := by
  rw [generate_uuid, generate_uuid] at h
  rw [show (32 : Nat) = 24 + 8 from rfl] at h
  rw [@toHexPadded_take 24 8 a, @toHexPadded_take 24 8 b] at h
  exact map_toUpper_toHexPadded_inj h

/-! ### No marker can occur inside the inserted reference lines -/

theorem prefix_headChar {pat Z : List Char} {c0 : Char} {ps : List Char}
    (hp : pat = c0 :: ps) (h : pat <+: Z) : Z.head? = some c0 := by
  obtain ⟨t, ht⟩ := h
  rw [← ht, hp]
  rfl

theorem drop_cons2 {x y : Char} {X : List Char} {p : Nat} (hp : 2 ≤ p) :
    (x :: y :: X).drop p = X.drop (p - 2) := by
  obtain ⟨q, rfl⟩ : ∃ q, p = q + 2 := ⟨p - 2, by omega⟩
  simp [List.drop_succ_cons]

theorem not_occurs_of_findSub_none {pat c : List Char} (h : findSub pat c = none) :
    ¬ pat <:+: c := findSub_eq_none_iff.mp h

/-- Entry-line shape: a pattern beginning with a character that is
neither a tab nor an uppercase hexadecimal digit, and absent from the
fixed tail text, occurs nowhere in `"\t\t" ++ id ++ tail` when every
character of `id` is an uppercase hexadecimal digit. -/
theorem not_occurs_entry {pat id tail : List Char} {c0 : Char} {ps : List Char}
    (hp : pat = c0 :: ps)
    (hc0hex : isHexUpperChar c0 = false) (hc0tab : c0 ≠ '\t')
    (hid : ∀ a ∈ id, isHexUpperChar a = true)
    (htail : ¬ pat <:+: tail) :
    ¬ pat <:+: ('\t' :: '\t' :: (id ++ tail)) := by
  intro h
  obtain ⟨p, hpre⟩ := infix_iff_drop.mp h
  by_cases h2 : 2 ≤ p
  · rw [drop_cons2 h2] at hpre
    by_cases h3 : p - 2 < id.length
    · have hne2 : id.drop (p - 2) ≠ [] := by
        rw [Ne, List.drop_eq_nil_iff]
        omega
      obtain ⟨ch, rest2, hch⟩ := List.exists_cons_of_ne_nil hne2
      have heq : (id ++ tail).drop (p - 2) = ch :: (rest2 ++ tail) := by
        rw [List.drop_append_eq_append_drop, Nat.sub_eq_zero_of_le (Nat.le_of_lt h3),
          List.drop_zero, hch]
        rfl
      rw [heq] at hpre
      have hhead := prefix_headChar hp hpre
      simp only [List.head?_cons, Option.some.injEq] at hhead
      have hmem : ch ∈ id := List.drop_subset _ _ (by rw [hch]; exact List.mem_cons_self _ _)
      rw [hhead] at hmem
      exact absurd (hid c0 hmem) (by simp [hc0hex])
    · have heq : (id ++ tail).drop (p - 2) = tail.drop (p - 2 - id.length) := by
        rw [List.drop_append_eq_append_drop, List.drop_eq_nil_iff.mpr (by omega),
          List.nil_append]
      rw [heq] at hpre
      exact htail (infix_iff_drop.mpr ⟨_, hpre⟩)
  · have h2lt : p < 2 := by omega
    have hhead := prefix_headChar hp hpre
    interval_cases p <;> simp_all

theorem not_occurs_entry_append {pat id tail R : List Char} {c0 : Char} {ps : List Char}
    (hp : pat = c0 :: ps)
    (hc0hex : isHexUpperChar c0 = false) (hc0tab : c0 ≠ '\t') (hnl : '\n' ∉ pat)
    (hid : ∀ a ∈ id, isHexUpperChar a = true)
    (ht2 : ∃ t2, tail = t2 ++ ['\n'] ∧ ¬ pat <:+: t2)
    (hR : ¬ pat <:+: R) :
    ¬ pat <:+: ('\t' :: '\t' :: (id ++ tail)) ++ R := by
  intro h
  obtain ⟨t2, rfl, hnott2⟩ := ht2
  have hne : pat ≠ [] := by rw [hp]; simp
  have heq : ('\t' :: '\t' :: (id ++ (t2 ++ ['\n']))) ++ R
      = ('\t' :: '\t' :: (id ++ t2)) ++ '\n' :: R := by
    simp [List.append_assoc]
  rw [heq] at h
  rcases occurs_append_cons hne hnl h with h1 | h2
  · exact not_occurs_entry hp hc0hex hc0tab hid hnott2 h1
  · exact hR h2

/-- The fixed text of a reference entry line after the identifier. -/
def refTail (name : List Char) : List Char :=
  " /* ".data ++ name ++ " */ = \x7bisa = PBXFileReference; ".data ++ lastKnownToken
    ++ "path = ".data ++ name ++ "; sourceTree = \"<group>\"; \x7d;\n".data

theorem refEntry_decomp (ref name : List Char) :
    refEntry ref name = '\t' :: '\t' :: (ref ++ refTail name) := by
  rw [refEntry, refTail]
  simp [List.append_assoc]

set_option maxRecDepth 40000 in
theorem new_files_enum : new_files.enum =
    [(0, "WorldClockLocation.swift".data), (1, "WorldClockManager.swift".data),
     (2, "WorldClockView.swift".data), (3, "WorldClockPickerView.swift".data)] := by decide

theorem file_refs_dict_new_files (seeds : Nat → Nat) :
    file_refs_dict seeds new_files =
      [("WorldClockLocation.swift".data, generate_uuid (seeds 0)),
       ("WorldClockManager.swift".data, generate_uuid (seeds 2)),
       ("WorldClockView.swift".data, generate_uuid (seeds 4)),
       ("WorldClockPickerView.swift".data, generate_uuid (seeds 6))] := by
  rw [file_refs_dict, new_files_enum]
  norm_num

theorem dictGet_new_files_ref (seeds : Nat → Nat) :
    dictGet (file_refs_dict seeds new_files) "WorldClockLocation.swift".data
        = generate_uuid (seeds 0) ∧
      dictGet (file_refs_dict seeds new_files) "WorldClockManager.swift".data
        = generate_uuid (seeds 2) ∧
      dictGet (file_refs_dict seeds new_files) "WorldClockView.swift".data
        = generate_uuid (seeds 4) ∧
      dictGet (file_refs_dict seeds new_files) "WorldClockPickerView.swift".data
        = generate_uuid (seeds 6) := by
  rw [file_refs_dict_new_files]
  refine ⟨?_, ?_, ?_, ?_⟩ <;> simp +decide [dictGet, dictFind]

theorem refLines_new_files_shape (seeds : Nat → Nat) :
    refLines seeds new_files =
      ('\t' :: '\t' :: (generate_uuid (seeds 0) ++ refTail "WorldClockLocation.swift".data)) ++
      (('\t' :: '\t' :: (generate_uuid (seeds 2) ++ refTail "WorldClockManager.swift".data)) ++
      (('\t' :: '\t' :: (generate_uuid (seeds 4) ++ refTail "WorldClockView.swift".data)) ++
      ('\t' :: '\t' :: (generate_uuid (seeds 6) ++ refTail "WorldClockPickerView.swift".data)))) := by
  obtain ⟨h0, h1, h2, h3⟩ := dictGet_new_files_ref seeds
  rw [refLines]
  set D := file_refs_dict seeds new_files with hD
  rw [show new_files = ["WorldClockLocation.swift".data, "WorldClockManager.swift".data,
    "WorldClockView.swift".data, "WorldClockPickerView.swift".data] from rfl]
  simp only [List.map_cons, List.map_nil, List.flatten_cons, List.flatten_nil,
    List.append_nil, h0, h1, h2, h3, refEntry_decomp]

set_option maxRecDepth 40000 in
/-- The PBXBuildFile end marker cannot occur inside the inserted
reference lines, whatever identifiers the uuid stream produced. -/
theorem build_end_not_in_refLines (seeds : Nat → Nat) :
    ¬ build_file_end_marker <:+: refLines seeds new_files := by
  rw [refLines_new_files_shape]
  have hp : build_file_end_marker = '/' :: "* End PBXBuildFile section */".data := rfl
  refine not_occurs_entry_append hp (by decide) (by decide) (by decide)
    (fun a ha => generate_uuid_chars ha)
    ⟨(refTail "WorldClockLocation.swift".data).dropLast, by decide,
      not_occurs_of_findSub_none (by decide)⟩ ?_
  refine not_occurs_entry_append hp (by decide) (by decide) (by decide)
    (fun a ha => generate_uuid_chars ha)
    ⟨(refTail "WorldClockManager.swift".data).dropLast, by decide,
      not_occurs_of_findSub_none (by decide)⟩ ?_
  refine not_occurs_entry_append hp (by decide) (by decide) (by decide)
    (fun a ha => generate_uuid_chars ha)
    ⟨(refTail "WorldClockView.swift".data).dropLast, by decide,
      not_occurs_of_findSub_none (by decide)⟩ ?_
  exact not_occurs_entry hp (by decide) (by decide)
    (fun a ha => generate_uuid_chars ha) (not_occurs_of_findSub_none (by decide))

set_option maxRecDepth 40000 in
/-- The inserted reference lines end with a newline character. -/
theorem refLines_new_files_ends (seeds : Nat → Nat) :
    ∃ ins2, refLines seeds new_files = ins2 ++ ['\n'] := by
  obtain ⟨T3, hT3⟩ : ∃ T3, refTail "WorldClockPickerView.swift".data = T3 ++ ['\n'] :=
    ⟨(refTail "WorldClockPickerView.swift".data).dropLast, by decide⟩
  refine ⟨('\t' :: '\t' :: (generate_uuid (seeds 0) ++ refTail "WorldClockLocation.swift".data)) ++
      (('\t' :: '\t' :: (generate_uuid (seeds 2) ++ refTail "WorldClockManager.swift".data)) ++
      (('\t' :: '\t' :: (generate_uuid (seeds 4) ++ refTail "WorldClockView.swift".data)) ++
      ('\t' :: '\t' :: (generate_uuid (seeds 6) ++ T3)))), ?_⟩
  rw [refLines_new_files_shape, hT3]
  simp [List.append_assoc]

theorem pyContains_false_iff {c pat : List Char} :
    pyContains c pat = false ↔ pyIndex c pat = none := by
  rw [pyContains]
  cases pyIndex c pat <;> simp

theorem pyContains_true_iff {c pat : List Char} :
    pyContains c pat = true ↔ ∃ i, pyIndex c pat = some i := by
  rw [pyContains]
  cases pyIndex c pat <;> simp

/-! ### Token lists produced by one run -/

theorem enum_pair_map_snd (g : Nat → List Char) (l : List (List Char)) :
    (l.enum.map fun p => (p.2, g p.1)).map Prod.snd = (List.range l.length).map g := by
  rw [List.map_map, ← List.enum_map_fst l, List.map_map]
  exact List.map_congr_left fun p _ => rfl

theorem file_refs_dict_vals (seeds : Nat → Nat) (files : List (List Char)) :
    (file_refs_dict seeds files).map Prod.snd
      = (List.range files.length).map fun i => generate_uuid (seeds (2 * i)) :=
  enum_pair_map_snd (fun i => generate_uuid (seeds (2 * i))) files

theorem build_files_dict_vals (seeds : Nat → Nat) (files : List (List Char)) :
    (build_files_dict seeds files).map Prod.snd
      = (List.range files.length).map fun i => generate_uuid (seeds (2 * i + 1)) :=
  enum_pair_map_snd (fun i => generate_uuid (seeds (2 * i + 1))) files

/-! ### Concrete run data used by witnesses and counterexamples -/

/-- A concrete stand-in for the uuid stream: draw `k` is `k` shifted into
the high 96 bits, so the 24 retained hex digits of the draws differ. -/
def seedsIdx : Nat → Nat := fun k => k * 4294967296

/-- A manifest with only the two mandatory marker pairs. -/
def mBoth : List Char :=
  ("/* Begin PBXFileReference section */A/* End PBXFileReference section */\n" ++
   "/* Begin PBXBuildFile section */B/* End PBXBuildFile section */\n").data

/-- A manifest whose build-file section has a start marker but no end
marker. -/
def mNoBuildEnd : List Char :=
  ("/* Begin PBXFileReference section */A/* End PBXFileReference section */\n" ++
   "/* Begin PBXBuildFile section */C\n").data

/-- A manifest with both mandatory pairs, no group marker, and a Sources
phase marker that is not followed by a files list. -/
def mBadSources : List Char :=
  ("/* Begin PBXFileReference section */A/* End PBXFileReference section */\n" ++
   "/* Begin PBXBuildFile section */B/* End PBXBuildFile section */\n" ++
   "/* Sources */ = \x7b no list here\n").data

/-- A manifest with both mandatory pairs and a group marker that is not
followed by a children list. -/
def mBadGroup : List Char :=
  ("/* Begin PBXFileReference section */A/* End PBXFileReference section */\n" ++
   "/* Begin PBXBuildFile section */B/* End PBXBuildFile section */\n" ++
   "CoolClockPresence */ = \x7b no list here\n").data

/-- A one-element file list for concrete runs of the parameterised
steps. -/
def oneFile : List (List Char) := ["A.swift".data]

def c5a : List Char := getOk (refsStep (refLines seedsIdx oneFile) mNoBuildEnd)

def c10a : List Char := getOk (refsStep (refLines seedsIdx oneFile) mBadGroup)

def c10b : List Char := getOk (buildStep (buildLines seedsIdx oneFile) c10a)

def c6a : List Char := getOk (refsStep (refLines seedsIdx oneFile) mBoth)

def c6b : List Char := getOk (buildStep (buildLines seedsIdx oneFile) c6a)

/-! ### The claims -/

/-- C1: for every manifest text in which a mandatory section marker (the
reference-section start marker, or either section's end marker) is
absent, the run reports failure and performs no write: the file on disk
remains byte-identical to its pre-run content. -/
theorem C1_missing_mandatory_marker_aborts (seeds : Nat → Nat) (content : List Char)
    (h : pyContains content file_ref_marker = false ∨
         pyContains content file_ref_end_marker = false ∨
         pyContains content build_file_end_marker = false) :
    (∀ out, add_files_to_project seeds new_files content ≠ .ok out) ∧
      finalDisk seeds new_files content = content := by
  have hnotok : ∀ out, add_files_to_project seeds new_files content ≠ .ok out := by
    intro out hok
    obtain ⟨c1, c2, c3, hr, hb, hg, hs⟩ := add_files_ok_iff.mp hok
    obtain ⟨i, e, hi, he, rfl⟩ := refsStep_ok_iff.mp hr
    rcases h with h1 | h2 | h3
    · rw [pyContains_false_iff] at h1
      rw [h1] at hi
      exact Option.noConfusion hi
    · rw [pyContains_false_iff] at h2
      rw [h2] at he
      exact Option.noConfusion he
    · obtain ⟨i2, e2, hbi, hbe, -⟩ := buildStep_ok_iff.mp hb
      have hnc : ¬ build_file_end_marker <:+: content :=
        findSub_eq_none_iff.mp (pyContains_false_iff.mp h3)
      have hno : ¬ build_file_end_marker <:+:
          spliceSec (i + file_ref_marker.length) e (refLines seeds new_files) content := by
        refine spliceSec_no_new (by decide) (by decide)
          (build_end_not_in_refLines seeds) (Or.inr (refLines_new_files_ends seeds)) hnc
      have : pyIndex (spliceSec (i + file_ref_marker.length) e (refLines seeds new_files)
          content) build_file_end_marker = none := findSub_eq_none_iff.mpr hno
      rw [this] at hbe
      exact Option.noConfusion hbe
  refine ⟨hnotok, ?_⟩
  unfold finalDisk
  cases hv : add_files_to_project seeds new_files content with
  | returnFalse => rfl
  | valueError => rfl
  | ok out => exact absurd hv (hnotok out)

set_option maxRecDepth 100000 in
theorem C1_witness :
    (∀ out, add_files_to_project seedsIdx new_files "no markers here".data ≠ .ok out) ∧
      finalDisk seedsIdx new_files "no markers here".data = "no markers here".data :=
  C1_missing_mandatory_marker_aborts seedsIdx "no markers here".data (Or.inl (by decide))

/-- C3: whenever the run succeeds, each of the four insertion steps is a
purely additive single-point insertion, and the original text splits into
five contiguous byte ranges that reappear byte-identically and in order
in the output, separated only by the at most four inserted blocks. -/
theorem C3_purely_additive (seeds : Nat → Nat) (files : List (List Char))
    (content out : List Char)
    (h : add_files_to_project seeds files content = .ok out) :
    (∃ c1 c2 c3, Ins1 content c1 ∧ Ins1 c1 c2 ∧ Ins1 c2 c3 ∧ Ins1 c3 out) ∧
      Additive4 content out := by
  obtain ⟨c1, c2, c3, h1, h2, h3, h4⟩ := add_files_ok_iff.mp h
  have i1 := refsStep_ins1 h1
  have i2 := buildStep_ins1 h2
  have i3 := groupStep_ins1 h3
  have i4 := sourcesStep_ins1 h4
  exact ⟨⟨c1, c2, c3, i1, i2, i3, i4⟩, add3_comp (add2_comp (ins1_comp2 i1 i2) i3) i4⟩

set_option maxRecDepth 100000 in
theorem C3_witness :
    (∃ c1 c2 c3, Ins1 mBoth c1 ∧ Ins1 c1 c2 ∧ Ins1 c2 c3 ∧
        Ins1 c3 (getOk (add_files_to_project seedsIdx oneFile mBoth))) ∧
      Additive4 mBoth (getOk (add_files_to_project seedsIdx oneFile mBoth)) :=
  C3_purely_additive seedsIdx oneFile mBoth
    (getOk (add_files_to_project seedsIdx oneFile mBoth)) (by decide)

set_option maxRecDepth 100000 in
/-- C5 as stated is false: when the build-file start marker is present
but its end marker is missing, the lookup at line 82 raises and the whole
run aborts; processing does not continue. -/
theorem C5_counterexample :
    pyContains mNoBuildEnd build_file_marker = true ∧
      pyContains mNoBuildEnd build_file_end_marker = false ∧
      add_files_to_project seedsIdx oneFile mNoBuildEnd = .valueError := by decide

/-- C5 amended: if, at the time of the build-file step, the start marker
is present but the end marker is absent, the run aborts with an unhandled
lookup failure and the file on disk is left unchanged (the step does not
silently skip, and the run does not complete). -/
theorem C5_amended_missing_build_end_aborts (seeds : Nat → Nat)
    (files : List (List Char)) (content c1 : List Char)
    (h1 : refsStep (refLines seeds files) content = .ok c1)
    (h2 : pyContains c1 build_file_marker = true)
    (h3 : pyContains c1 build_file_end_marker = false) :
    add_files_to_project seeds files content = .valueError ∧
      finalDisk seeds files content = content := by
  obtain ⟨i2, hi2⟩ := pyContains_true_iff.mp h2
  have he2 := pyContains_false_iff.mp h3
  have hadd : add_files_to_project seeds files content = .valueError := by
    simp only [add_files_to_project, h1, buildStep, hi2, he2]
  exact ⟨hadd, by unfold finalDisk; rw [hadd]⟩

set_option maxRecDepth 100000 in
theorem C5_amended_witness :
    add_files_to_project seedsIdx oneFile mNoBuildEnd = .valueError ∧
      finalDisk seedsIdx oneFile mNoBuildEnd = mNoBuildEnd :=
  C5_amended_missing_build_end_aborts seedsIdx oneFile mNoBuildEnd c5a
    (by decide) (by decide) (by decide)

set_option maxRecDepth 100000 in
/-- C6 as stated is false: a manifest can contain both mandatory marker
pairs and no group marker and still make the run abort, because the
Sources-phase step raises when its marker is present but the files list
tokens are not found after it. -/
theorem C6_counterexample :
    pyContains mBadSources file_ref_marker = true ∧
      pyContains mBadSources file_ref_end_marker = true ∧
      pyContains mBadSources build_file_marker = true ∧
      pyContains mBadSources build_file_end_marker = true ∧
      pyContains mBadSources main_group_marker = false ∧
      add_files_to_project seedsIdx oneFile mBadSources = .valueError := by decide

/-- C6 amended: when both mandatory steps succeed and neither optional
marker is present in the resulting text, the run still succeeds: the
reference and build-file sections have received their new lines, the two
optional steps are skipped silently, and the rest of the text is exactly
the text produced by the two mandatory insertions. -/
theorem C6_amended_optional_steps_skipped (seeds : Nat → Nat)
    (files : List (List Char)) (content c1 c2 : List Char)
    (h1 : refsStep (refLines seeds files) content = .ok c1)
    (h2 : buildStep (buildLines seeds files) c1 = .ok c2)
    (h3 : pyContains c2 main_group_marker = false)
    (h4 : pyContains c2 sources_phase_marker = false) :
    add_files_to_project seeds files content = .ok c2 := by
  have hg := pyContains_false_iff.mp h3
  have hs := pyContains_false_iff.mp h4
  simp only [add_files_to_project, h1, h2, groupStep, hg, sourcesStep, hs]

set_option maxRecDepth 100000 in
theorem C6_amended_witness :
    add_files_to_project seedsIdx oneFile mBoth = .ok c6b :=
  C6_amended_optional_steps_skipped seedsIdx oneFile mBoth c6a c6b
    (by decide) (by decide) (by decide) (by decide)

/-- C8: every identifier produced by the generator is exactly 24
characters long and consists only of uppercase hexadecimal digits. -/
theorem C8_identifier_format (n : Nat) :
    (generate_uuid n).length = 24 ∧ ∀ ch ∈ generate_uuid n, isHexUpperChar ch = true :=
  ⟨generate_uuid_length n, fun _ hch => generate_uuid_chars hch⟩

set_option maxRecDepth 100000 in
/-- C9 as stated is false: the code never compares the drawn tokens, so
when the truncated 96-bit prefixes of two uuid4 draws coincide the two
tokens of one file are equal.  Concretely, with every draw equal to zero
the referenceId and buildId of the first file are the same token. -/
theorem C9_counterexample :
    dictGet (file_refs_dict (fun _ => 0) new_files) "WorldClockLocation.swift".data
      = dictGet (build_files_dict (fun _ => 0) new_files)
          "WorldClockLocation.swift".data := by decide

/-- C9 amended: the two tokens of each file and all tokens across files
are pairwise distinct provided the high 96 bits of the underlying
128-bit draws are pairwise distinct; the code itself performs no
collision avoidance, so uniqueness holds only with high probability. -/
theorem C9_amended_tokens_distinct (seeds : Nat → Nat) (files : List (List Char))
    (h : ∀ i, i < 2 * files.length → ∀ j, j < 2 * files.length → i ≠ j →
      seeds i / 16 ^ 8 % 16 ^ 24 ≠ seeds j / 16 ^ 8 % 16 ^ 24) :
    ((file_refs_dict seeds files).map Prod.snd ++
      (build_files_dict seeds files).map Prod.snd).Nodup := by
  rw [file_refs_dict_vals, build_files_dict_vals, List.nodup_append]
  have key : ∀ a b : Nat, a < 2 * files.length → b < 2 * files.length → a ≠ b →
      generate_uuid (seeds a) ≠ generate_uuid (seeds b) := by
    intro a b ha hb hne hgen
    exact h a ha b hb hne (generate_uuid_inj hgen)
  refine ⟨?_, ?_, ?_⟩
  · refine List.Nodup.map_on ?_ (List.nodup_range _)
    intro i hi j hj hg
    rw [List.mem_range] at hi hj
    by_contra hne
    exact key (2 * i) (2 * j) (by omega) (by omega) (by omega) hg
  · refine List.Nodup.map_on ?_ (List.nodup_range _)
    intro i hi j hj hg
    rw [List.mem_range] at hi hj
    by_contra hne
    exact key (2 * i + 1) (2 * j + 1) (by omega) (by omega) (by omega) hg
  · intro x hx1 hx2
    obtain ⟨i, hi, rfl⟩ := List.mem_map.mp hx1
    obtain ⟨j, hj, hgeq⟩ := List.mem_map.mp hx2
    rw [List.mem_range] at hi hj
    exact key (2 * j + 1) (2 * i) (by omega) (by omega) (by omega) hgeq

set_option maxRecDepth 100000 in
theorem C9_amended_witness :
    ((file_refs_dict seedsIdx new_files).map Prod.snd ++
      (build_files_dict seedsIdx new_files).map Prod.snd).Nodup :=
  C9_amended_tokens_distinct seedsIdx new_files (by decide)

/-- C10: the single write is the last operation of the run, so any
unhandled lookup failure in an insertion step leaves the file on disk
byte-identical to its pre-run content; in particular, when the optional
group marker is present but no children token occurs at or after it, the
run ends in an unhandled lookup failure, not a silent skip, and the file
is unchanged. -/
theorem C10_no_write_on_exception (seeds : Nat → Nat) (files : List (List Char))
    (content c1 c2 : List Char) (mg : Nat)
    (h1 : refsStep (refLines seeds files) content = .ok c1)
    (h2 : buildStep (buildLines seeds files) c1 = .ok c2)
    (h3 : pyIndex c2 main_group_marker = some mg)
    (h4 : pyIndexFrom c2 children_marker mg = none) :
    add_files_to_project seeds files content = .valueError ∧
      finalDisk seeds files content = content := by
  have hadd : add_files_to_project seeds files content = .valueError := by
    simp only [add_files_to_project, h1, h2, groupStep, h3, h4]
  exact ⟨hadd, by unfold finalDisk; rw [hadd]⟩

set_option maxRecDepth 100000 in
theorem C10_witness :
    add_files_to_project seedsIdx oneFile mBadGroup = .valueError ∧
      finalDisk seedsIdx oneFile mBadGroup = mBadGroup :=
  C10_no_write_on_exception seedsIdx oneFile mBadGroup c10a c10b
    ((pyIndex c10b main_group_marker).getD 0) (by decide) (by decide)
    (by decide) (by decide)

/-! ### C2, C4, C7 -/

/-- The empty-sections manifest of the C2 scenario: both mandatory marker
pairs adjacent, no optional markers. -/
def mEmptySections : List Char :=
  ("X/* Begin PBXBuildFile section *//* End PBXBuildFile section */\n" ++
   "/* Begin PBXFileReference section *//* End PBXFileReference section */\nY").data

/-- The two-name input list of the C2 scenario. -/
def twoFiles : List (List Char) := ["A.swift".data, "B.swift".data]

set_option maxRecDepth 100000 in
/-- C2: on a manifest whose reference and build-file sections are empty
and an input list of two names, the run succeeds, the output reference
section holds exactly the two new reference lines in input order with a
distinct identifier pair for each, and the build-file section holds
exactly the two new build lines whose fileRef token is the referenceId
generated for the same name. -/
theorem C2_end_to_end_two_files :
    add_files_to_project seedsIdx twoFiles mEmptySections
        = .ok (getOk (add_files_to_project seedsIdx twoFiles mEmptySections)) ∧
    sectionBetween (getOk (add_files_to_project seedsIdx twoFiles mEmptySections))
        file_ref_marker file_ref_end_marker
      = '\n' :: (refEntry (generate_uuid (seedsIdx 0)) "A.swift".data ++
                 refEntry (generate_uuid (seedsIdx 2)) "B.swift".data) ∧
    sectionBetween (getOk (add_files_to_project seedsIdx twoFiles mEmptySections))
        build_file_marker build_file_end_marker
      = '\n' :: (buildEntry (generate_uuid (seedsIdx 1)) (generate_uuid (seedsIdx 0))
                   "A.swift".data ++
                 buildEntry (generate_uuid (seedsIdx 3)) (generate_uuid (seedsIdx 2))
                   "B.swift".data) ∧
    (generate_uuid (seedsIdx 0) ≠ generate_uuid (seedsIdx 1) ∧
     generate_uuid (seedsIdx 2) ≠ generate_uuid (seedsIdx 3) ∧
     generate_uuid (seedsIdx 0) ≠ generate_uuid (seedsIdx 2) ∧
     generate_uuid (seedsIdx 0) ≠ generate_uuid (seedsIdx 3) ∧
     generate_uuid (seedsIdx 1) ≠ generate_uuid (seedsIdx 2) ∧
     generate_uuid (seedsIdx 1) ≠ generate_uuid (seedsIdx 3)) := by decide

/-- The extension-to-type lookup table exactly as the spec words it
(spec-side definition, used only to compare the claim against the code):
a Swift source extension maps to the fixed sourcecode type string, an
unrecognized extension to the generic text type. -/
def spec_lastKnownFileType (name : List Char) : List Char :=
  if ".swift".data.isSuffixOf name then "sourcecode.swift".data else "text".data

set_option maxRecDepth 100000 in
/-- C4 as stated is false: the code never inspects the extension.  For a
name whose extension the spec's table sends to the text type, the line
built at line 55 still carries the constant sourcecode.swift token and no
text token. -/
theorem C4_counterexample :
    spec_lastKnownFileType "Image.png".data = "text".data ∧
      pyContains (refEntry (generate_uuid 0) "Image.png".data)
        ("lastKnownFileType = sourcecode.swift; ".data) = true ∧
      pyContains (refEntry (generate_uuid 0) "Image.png".data)
        ("lastKnownFileType = text".data) = false := by decide

/-- C4 amended: for every identifier and file name, the reference line
contains the literal constant lastKnownFileType clause (with the fixed
sourcecode.swift token), independent of the extension of the name. -/
theorem C4_amended_type_token_constant (ref name : List Char) :
    ∃ A B, refEntry ref name = A ++ (lastKnownToken ++ B) :=
  ⟨"\t\t".data ++ ref ++ " /* ".data ++ name ++ " */ = \x7bisa = PBXFileReference; ".data,
   "path = ".data ++ name ++ "; sourceTree = \"<group>\"; \x7d;\n".data,
   by rw [refEntry]; simp [List.append_assoc]⟩

/-- C7 amended: if every step finds its markers, with each start marker
before the corresponding end token, the run succeeds and the output
length exceeds the input length by the total length of the inserted entry
lines plus two, one newline inserted after each mandatory section start
marker. -/
theorem C7_amended_length_equation (seeds : Nat → Nat) (files : List (List Char))
    (content c1 c2 c3 c4 : List Char) (i1 e1 i2 e2 mg cp ce sp fp fe : Nat)
    (hfiles : files ≠ [])
    (hi1 : pyIndex content file_ref_marker = some i1)
    (he1 : pyIndex content file_ref_end_marker = some e1)
    (ho1 : i1 + file_ref_marker.length ≤ e1)
    (hc1 : c1 = spliceSec (i1 + file_ref_marker.length) e1 (refLines seeds files) content)
    (hi2 : pyIndex c1 build_file_marker = some i2)
    (he2 : pyIndex c1 build_file_end_marker = some e2)
    (ho2 : i2 + build_file_marker.length ≤ e2)
    (hc2 : c2 = spliceSec (i2 + build_file_marker.length) e2 (buildLines seeds files) c1)
    (hmg : pyIndex c2 main_group_marker = some mg)
    (hcp : pyIndexFrom c2 children_marker mg = some cp)
    (hce : pyIndexFrom c2 close_paren_marker cp = some ce)
    (hc3 : c3 = insertAt ce (childLines seeds files) c2)
    (hsp : pyIndex c3 sources_phase_marker = some sp)
    (hfp : pyIndexFrom c3 files_marker sp = some fp)
    (hfe : pyIndexFrom c3 close_paren_marker fp = some fe)
    (hc4 : c4 = insertAt fe (sourceLines seeds files) c3) :
    add_files_to_project seeds files content = .ok c4 ∧
      c4.length = content.length +
        ((refLines seeds files).length + (buildLines seeds files).length +
         (childLines seeds files).length + (sourceLines seeds files).length) + 2 := by
  constructor
  · simp only [add_files_to_project, refsStep, hi1, he1, ← hc1, buildStep, hi2, he2,
      ← hc2, groupStep, hmg, hcp, hce, ← hc3, sourcesStep, hsp, hfp, hfe, ← hc4]
  · have hb1 : e1 ≤ content.length := by
      have := (findSub_some he1).2
      omega
    have l1 : c1.length = content.length + 1 + (refLines seeds files).length := by
      rw [hc1]
      exact spliceSec_length ho1 hb1
    have hb2 : e2 ≤ c1.length := by
      have := (findSub_some he2).2
      omega
    have l2 : c2.length = c1.length + 1 + (buildLines seeds files).length := by
      rw [hc2]
      exact spliceSec_length ho2 hb2
    have hbce : ce ≤ c2.length := by
      have := pyIndexFrom_bound (by decide) hce
      omega
    have l3 : c3.length = c2.length + (childLines seeds files).length := by
      rw [hc3]
      exact insertAt_length hbce
    have hbfe : fe ≤ c3.length := by
      have := pyIndexFrom_bound (by decide) hfe
      omega
    have l4 : c4.length = c3.length + (sourceLines seeds files).length := by
      rw [hc4]
      exact insertAt_length hbfe
    omega

/-- A manifest in which every one of the four insertion steps finds its
markers. -/
def mFull : List Char :=
  ("/* Begin PBXBuildFile section *//* End PBXBuildFile section */\n" ++
   "/* Begin PBXFileReference section *//* End PBXFileReference section */\n" ++
   "CoolClockPresence */ = \x7b\n\t\t\tchildren = (\n\t\t\t);\n" ++
   "/* Sources */ = \x7b\n\t\t\tfiles = (\n\t\t\t);\n").data

def w7i1 : Nat := (pyIndex mFull file_ref_marker).getD 0

def w7e1 : Nat := (pyIndex mFull file_ref_end_marker).getD 0

def w7c1 : List Char :=
  spliceSec (w7i1 + file_ref_marker.length) w7e1 (refLines seedsIdx oneFile) mFull

def w7i2 : Nat := (pyIndex w7c1 build_file_marker).getD 0

def w7e2 : Nat := (pyIndex w7c1 build_file_end_marker).getD 0

def w7c2 : List Char :=
  spliceSec (w7i2 + build_file_marker.length) w7e2 (buildLines seedsIdx oneFile) w7c1

def w7mg : Nat := (pyIndex w7c2 main_group_marker).getD 0

def w7cp : Nat := (pyIndexFrom w7c2 children_marker w7mg).getD 0

def w7ce : Nat := (pyIndexFrom w7c2 close_paren_marker w7cp).getD 0

def w7c3 : List Char := insertAt w7ce (childLines seedsIdx oneFile) w7c2

def w7sp : Nat := (pyIndex w7c3 sources_phase_marker).getD 0

def w7fp : Nat := (pyIndexFrom w7c3 files_marker w7sp).getD 0

def w7fe : Nat := (pyIndexFrom w7c3 close_paren_marker w7fp).getD 0

def w7c4 : List Char := insertAt w7fe (sourceLines seedsIdx oneFile) w7c3

set_option maxRecDepth 100000 in
theorem C7_amended_witness :
    add_files_to_project seedsIdx oneFile mFull = .ok w7c4 ∧
      w7c4.length = mFull.length +
        ((refLines seedsIdx oneFile).length + (buildLines seedsIdx oneFile).length +
         (childLines seedsIdx oneFile).length + (sourceLines seedsIdx oneFile).length) + 2 :=
  C7_amended_length_equation seedsIdx oneFile mFull w7c1 w7c2 w7c3 w7c4
    w7i1 w7e1 w7i2 w7e2 w7mg w7cp w7ce w7sp w7fp w7fe
    (by decide) (by decide) (by decide) (by decide) rfl
    (by decide) (by decide) (by decide) rfl
    (by decide) (by decide) (by decide) rfl
    (by decide) (by decide) (by decide) rfl

set_option maxRecDepth 100000 in
/-- C7 as stated is false: on a manifest with all four markers present
and a non-empty input list the run succeeds, but the output length
exceeds the input length by the total length of the inserted entry lines
plus the two extra newline characters of lines 64 and 86, not by the
total length of the entry lines alone. -/
theorem C7_counterexample :
    oneFile ≠ [] ∧
    pyContains mFull file_ref_marker = true ∧
    pyContains mFull file_ref_end_marker = true ∧
    pyContains mFull build_file_marker = true ∧
    pyContains mFull build_file_end_marker = true ∧
    pyContains mFull main_group_marker = true ∧
    pyContains mFull sources_phase_marker = true ∧
    add_files_to_project seedsIdx oneFile mFull = .ok w7c4 ∧
    w7c4.length ≠ mFull.length +
      ((refLines seedsIdx oneFile).length + (buildLines seedsIdx oneFile).length +
       (childLines seedsIdx oneFile).length + (sourceLines seedsIdx oneFile).length) := by
  decide

end XcodePatch
